import Mathlib

/-!
Shallow embedding of `src/Project/phishing_tester.py` (class `PhishingSimulator`).

The SQLite store is modelled as three lists of rows (`campaigns`, `employees`,
`results`), mirroring the schema created in `_init_database`.  Row identifiers
and tracking tokens are generated in Python by `uuid.uuid4()`; here they are
passed explicitly as arguments, and theorems that need their uniqueness state
it as a hypothesis (the uuid collision-freedom assumption made explicit).
Timestamps (`datetime.now().isoformat()`) are likewise passed as explicit
string arguments.  File-system side effects (the rendered e-mail files, the
exported report file) are modelled as returned values.
-/

namespace Phishing

/-- The `EmailTemplate` dataclass: name, subject, body, sender, difficulty. -/
structure EmailTemplate where
  name : String
  subject : String
  body : String
  sender : String
  difficulty : String
deriving Repr, DecidableEq

/-- A row of the `campaigns` table (`id, name, template, created, status`). -/
structure CampaignRow where
  id : String
  name : String
  template : String
  created : String
  status : String
deriving Repr, DecidableEq

/-- A row of the `employees` table (`id, email, name, department, campaign_id`). -/
structure EmployeeRow where
  id : String
  email : String
  name : String
  department : String
  campaign_id : String
deriving Repr, DecidableEq

/-- A row of the `results` table (`id, employee_id, campaign_id, email_sent,
link_clicked, phishing_reported, clicked_at, reported_at, token`).  The three
INTEGER 0/1 flags become `Bool`; the nullable timestamp columns become
`Option String`. -/
structure ResultRow where
  id : String
  employee_id : String
  campaign_id : String
  email_sent : Bool
  link_clicked : Bool
  phishing_reported : Bool
  clicked_at : Option String
  reported_at : Option String
  token : String
deriving Repr, DecidableEq

/-- The whole SQLite database. -/
structure Store where
  campaigns : List CampaignRow
  employees : List EmployeeRow
  results : List ResultRow
deriving Repr, DecidableEq

/-- The `password_reset` entry of `_load_templates`. -/
def tmplPasswordReset : EmailTemplate :=
  { name := "password_reset"
    subject := "Срочный сброс пароля"
    body := "Уважаемый сотрудник,\n\nНаша система безопасности обнаружила подозрительную активность.\nДля защиты данных требуется немедленный сброс пароля.\n\nСсылка: {link}\n\nС уважением,\nОтдел ИБ"
    sender := "security@company.com"
    difficulty := "low" }

/-- The `software_update` entry of `_load_templates`. -/
def tmplSoftwareUpdate : EmailTemplate :=
  { name := "software_update"
    subject := "Критическое обновление ПО"
    body := "Здравствуйте,\n\nТребуется установить обновление безопасности.\nПожалуйста, перейдите по ссылке для установки:\n\n\x7blink\x7d\n\nС уважением,\nIT отдел"
    sender := "it-support@company.com"
    difficulty := "medium" }

/-- The `ceo_request` entry of `_load_templates`. -/
def tmplCeoRequest : EmailTemplate :=
  { name := "ceo_request"
    subject := "Срочный запрос от руководства"
    body := "Добрый день,\n\nПрошу вас ознакомиться с важным документом.\nДоступ по ссылке:\n\n\x7blink\x7d\n\nС уважением,\nГенеральный директор"
    sender := "ceo@company.com"
    difficulty := "high" }

/-- Function `_load_templates`: the fixed three-entry template dictionary. -/
def templates : List (String × EmailTemplate) :=
  [ ("password_reset", tmplPasswordReset)
  , ("software_update", tmplSoftwareUpdate)
  , ("ceo_request", tmplCeoRequest) ]

/-- Dictionary lookup `self.templates.get(name)` / `name in self.templates`. -/
def templatesGet (n : String) : Option EmailTemplate :=
  (templates.find? (fun p => p.1 = n)).map (fun p => p.2)

/-- Method `create_campaign(name, template)`.  The generated `uuid.uuid4()` id and the
`datetime.now().isoformat()` timestamp are the explicit arguments `cid` and
`now`.  Returns the new campaign id and the updated store, or the
`ValueError` message for an unknown template (in which case nothing is
written). -/
def create_campaign (s : Store) (name template cid now : String) :
    Except String (String × Store) :=
  if (templatesGet template).isNone then
    .error ("Неизвестный шаблон: " ++ template)
  else
    .ok (cid,
      { s with campaigns :=
          s.campaigns ++ [{ id := cid, name := name, template := template,
                            created := now, status := "active" }] })

/-- One CSV record as produced by `csv.DictReader`: an association list from
column name to value. -/
abbrev Record := List (String × String)

/-- Lookup `row[k]` / `k in row` on a CSV record. -/
def recGet (r : Record) (k : String) : Option String :=
  (r.find? (fun p => p.1 = k)).map (fun p => p.2)

/-- The per-row check `all(key in row for key in ['email','name','department'])`. -/
def hasRequired (r : Record) : Bool :=
  (recGet r "email").isSome && (recGet r "name").isSome &&
    (recGet r "department").isSome

/-- Access `emp['email']` on a validated record (`.getD ""` is never reached on rows
that passed `hasRequired`). -/
def recEmail (r : Record) : String := (recGet r "email").getD ""

/-- Access `emp['name']` on a validated record. -/
def recName (r : Record) : String := (recGet r "name").getD ""

/-- Access `emp['department']` on a validated record. -/
def recDept (r : Record) : String := (recGet r "department").getD ""

/-- The ids `add_employees` draws from `uuid.uuid4()` for one record:
an employee id, a result id and a tracking token. -/
structure EnrollIds where
  emp_id : String
  result_id : String
  token : String
deriving Repr, DecidableEq

/-- The `results` row inserted for one record:
`INSERT INTO results (id, employee_id, campaign_id, token)` with the schema
defaults `email_sent = link_clicked = phishing_reported = 0` and NULL
timestamps. -/
def mkResult (cid : String) (i : EnrollIds) : ResultRow :=
  { id := i.result_id, employee_id := i.emp_id, campaign_id := cid,
    email_sent := false, link_clicked := false, phishing_reported := false,
    clicked_at := none, reported_at := none, token := i.token }

/-- Statement `INSERT OR IGNORE INTO employees`: the row is dropped when it would
violate a uniqueness constraint (primary key `id` or `UNIQUE` `email`),
otherwise appended. -/
def insertEmployee (emps : List EmployeeRow) (e : EmployeeRow) : List EmployeeRow :=
  if emps.any (fun x => x.id = e.id || x.email = e.email) then emps
  else emps ++ [e]

/-- The `employees` row built from one CSV record in `add_employees`. -/
def newEmp (cid : String) (rec : Record) (i : EnrollIds) : EmployeeRow :=
  { id := i.emp_id, email := recEmail rec, name := recName rec,
    department := recDept rec, campaign_id := cid }

/-- One iteration of the `for emp in employees` loop in `add_employees`:
insert-or-ignore the employee, then plain-`INSERT` the tracking result.
`none` models an `sqlite3.Error` from the result insert (duplicate `id`
primary key or `UNIQUE` token), which aborts and rolls back the whole
transaction. -/
def enrollStep (cid : String) (st : List EmployeeRow × List ResultRow)
    (rec : Record) (i : EnrollIds) : Option (List EmployeeRow × List ResultRow) :=
  if st.2.any (fun r => r.id = i.result_id || r.token = i.token) then none
  else some (insertEmployee st.1 (newEmp cid rec i), st.2 ++ [mkResult cid i])

/-- The whole insertion loop of `add_employees`, over the records zipped with
their generated ids. -/
def enrollLoop (cid : String) :
    List EmployeeRow × List ResultRow → List (Record × EnrollIds) →
    Option (List EmployeeRow × List ResultRow)
  | st, [] => some st
  | st, (rec, i) :: rest =>
    match enrollStep cid st rec i with
    | none => none
    | some st2 => enrollLoop cid st2 rest

/-- Method `add_employees(campaign_id, employees_file)`.  The parsed CSV rows are the
`records` argument; `ids` supplies one `uuid.uuid4()` triple per record.
Validation (every row carries `email`, `name`, `department`; the file is
non-empty) happens before the database is touched, and the insertion loop
runs inside one transaction, so an error leaves the store unchanged —
hence the `Except` shape: `.error` returns no store at all. -/
def add_employees (s : Store) (cid : String) (records : List Record)
    (ids : List EnrollIds) : Except String Store :=
  if !records.all hasRequired then
    .error "Ошибка чтения CSV: CSV должен содержать поля: email, name, department"
  else if records.isEmpty then
    .error "Ошибка чтения CSV: Файл не содержит данных"
  else
    match enrollLoop cid (s.employees, s.results) (records.zip ids) with
    | none => .error "Ошибка добавления сотрудников"
    | some st => .ok { s with employees := st.1, results := st.2 }

/-- The join
`SELECT e.email, e.name, r.token FROM employees e JOIN results r ON e.id = r.employee_id WHERE e.campaign_id = ?`
— and identically the join used by the department statistics —
as the list of matching (employee, result) row pairs. -/
def joinRows (s : Store) (cid : String) : List (EmployeeRow × ResultRow) :=
  (s.employees.filter (fun e => e.campaign_id = cid)).flatMap
    (fun e => (s.results.filter (fun r => r.employee_id = e.id)).map
      (fun r => (e, r)))

/-- The `(email, name, token)` triples `cursor.fetchall()` hands to the
rendering loop of `generate_emails`. -/
def joinTriples (s : Store) (cid : String) : List (String × String × String) :=
  (joinRows s cid).map (fun p => (p.1.email, p.1.name, p.2.token))

/-- One rendered e-mail file, field by field as written by `generate_emails`. -/
structure EmailDoc where
  filename : String
  recipient : String
  subject : String
  sender : String
  body : String
  campaign_name : String
  token : String
deriving Repr, DecidableEq

/-- The body substitution and file writing for one (email, name, token) triple. -/
def renderDoc (outDir : String) (t : EmailTemplate) (campName email tok : String) :
    EmailDoc :=
  { filename := outDir ++ "/" ++ (email.replace "@" "_") ++ ".txt"
    recipient := email
    subject := t.subject
    sender := t.sender
    body := t.body.replace "{link}" ("http://localhost:8080/track/" ++ tok)
    campaign_name := campName
    token := tok }

/-- Method `generate_emails(campaign_id, output_dir)`: look up the campaign, resolve
its template, fetch the join triples, write one document per triple and mark
each written result's `email_sent` flag (the per-row `UPDATE results SET
email_sent = 1 WHERE token = ?`).  Returns the written documents and the
updated store. -/
def generate_emails (s : Store) (cid : String) (outDir : String) :
    Except String (List EmailDoc × Store) :=
  match s.campaigns.find? (fun c => c.id = cid) with
  | none => .error "Кампания не найдена"
  | some c =>
    match templatesGet c.template with
    | none => .error ("Шаблон не найден: " ++ c.template)
    | some t =>
      let rows := joinRows s cid
      let toks := rows.map (fun p => p.2.token)
      let docs := rows.map (fun p => renderDoc outDir t c.name p.1.email p.2.token)
      .ok (docs,
        { s with results := s.results.map (fun r =>
            if toks.contains r.token then { r with email_sent := true } else r) })

/-- Method `simulate_click(token)`: `UPDATE results SET link_clicked = 1, clicked_at = ?
WHERE token = ?`; the returned `Bool` is `cursor.rowcount > 0` (`true` prints
«Клик зарегистрирован», `false` prints «Токен не найден»). -/
def simulate_click (s : Store) (tok now : String) : Store × Bool :=
  ({ s with results := s.results.map (fun r =>
      if r.token = tok then { r with link_clicked := true, clicked_at := some now }
      else r) },
   s.results.any (fun r => r.token = tok))

/-- Method `report_phishing(email, campaign_id)`: update the results of the employees
matching `(email, campaign_id)`; the `Bool` is again `rowcount > 0`. -/
def report_phishing (s : Store) (email cid now : String) : Store × Bool :=
  let hit : ResultRow → Bool := fun r =>
    s.employees.any (fun e => e.id = r.employee_id && e.email = email &&
      e.campaign_id = cid)
  ({ s with results := s.results.map (fun r =>
      if hit r then { r with phishing_reported := true, reported_at := some now }
      else r) },
   s.results.any hit)

/-- Floor of a rational as an integer, via integer floor division. -/
def qfloor (q : ℚ) : ℤ := Int.fdiv q.num q.den

/-- Round a rational to the nearest integer, ties to even — the rounding of
Python's builtin `round`. -/
def rhe (q : ℚ) : ℤ :=
  let f := qfloor q
  let frac := q - (f : ℚ)
  if frac < 1/2 then f
  else if 1/2 < frac then f + 1
  else if f % 2 = 0 then f else f + 1

/-- Python `round(x, 2)`: round to two decimal places. -/
def round2 (q : ℚ) : ℚ := ((rhe (q * 100) : ℚ)) / 100

/-- One entry of the per-department statistics list. -/
structure DeptStat where
  department : String
  total : Nat
  clicked : Nat
  reported : Nat
deriving Repr, DecidableEq

/-- The dictionary returned by `get_stats`. -/
structure StatsReport where
  total_employees : Nat
  emails_sent : Nat
  links_clicked : Nat
  phishing_reported : Nat
  click_rate : ℚ
  report_rate : ℚ
  department_stats : List DeptStat
deriving Repr, DecidableEq

/-- The `GROUP BY e.department` aggregation over the employee/result join:
one entry per distinct department value, with `COUNT(*)`,
`SUM(r.link_clicked)` and `SUM(r.phishing_reported)` over that group's join
rows. -/
def dept_stats (s : Store) (cid : String) : List DeptStat :=
  let rows := joinRows s cid
  ((rows.map (fun p => p.1.department)).dedup).map (fun d =>
    let drows := rows.filter (fun p => p.1.department = d)
    { department := d
      total := drows.length
      clicked := (drows.filter (fun p => p.2.link_clicked)).length
      reported := (drows.filter (fun p => p.2.phishing_reported)).length })

/-- Method `get_stats(campaign_id)`: totals over `results WHERE campaign_id = ?`
(`SUM` of a 0/1 column is the count of set flags; `x or 0` turns the NULL
sums of an empty table into 0, which the `List.length` of a filter gives
directly), the guarded percentage rates, and the department breakdown. -/
def get_stats (s : Store) (cid : String) : StatsReport :=
  let rs := s.results.filter (fun r => r.campaign_id = cid)
  let total := rs.length
  let clicked := (rs.filter (fun r => r.link_clicked)).length
  let reported := (rs.filter (fun r => r.phishing_reported)).length
  { total_employees := total
    emails_sent := (rs.filter (fun r => r.email_sent)).length
    links_clicked := clicked
    phishing_reported := reported
    click_rate := if total > 0 then round2 ((clicked : ℚ) / (total : ℚ) * 100) else 0
    report_rate := if total > 0 then round2 ((reported : ℚ) / (total : ℚ) * 100) else 0
    department_stats := dept_stats s cid }

/-- A JSON value, as written by `json.dump` and read back by `json.load`.
Numbers are rationals (covering both the integer counts and the two-decimal
rates). -/
inductive Json where
  | num : ℚ → Json
  | str : String → Json
  | arr : List Json → Json
  | obj : List (String × Json) → Json
deriving Repr

/-- The JSON object `json.dump` writes for one department entry. -/
def deptToJson (d : DeptStat) : Json :=
  .obj [ ("department", .str d.department)
       , ("total", .num (d.total : ℚ))
       , ("clicked", .num (d.clicked : ℚ))
       , ("reported", .num (d.reported : ℚ)) ]

/-- The JSON document `json.dump(stats, f)` writes for the whole report,
keys in the dictionary's insertion order. -/
def statsToJson (st : StatsReport) : Json :=
  .obj [ ("total_employees", .num (st.total_employees : ℚ))
       , ("emails_sent", .num (st.emails_sent : ℚ))
       , ("links_clicked", .num (st.links_clicked : ℚ))
       , ("phishing_reported", .num (st.phishing_reported : ℚ))
       , ("click_rate", .num st.click_rate)
       , ("report_rate", .num st.report_rate)
       , ("department_stats", .arr (st.department_stats.map deptToJson)) ]

/-- Read a JSON number back as the natural-number count it came from. -/
def jsonNat (j : Json) : Option Nat :=
  match j with
  | .num q => if q.den = 1 && 0 ≤ q.num then some q.num.toNat else none
  | _ => none

/-- Modelled from the spec: the repository writes the structured report with
`json.dump` but contains no reader for it; §8's round-trip property speaks of
«re-parsing» the exported document.  This is that re-parser: it reads the
JSON object written by `statsToJson` back into a `DeptStat`. -/
def deptOfJson (j : Json) : Option DeptStat :=
  match j with
  | .obj [ ("department", .str d), ("total", t), ("clicked", c), ("reported", r) ] =>
    match jsonNat t, jsonNat c, jsonNat r with
    | some tn, some cn, some rn =>
      some { department := d, total := tn, clicked := cn, reported := rn }
    | _, _, _ => none
  | _ => none

/-- Modelled from the spec: element-wise re-parsing of the department array
(see `deptOfJson`). -/
def deptsOfJson : List Json → Option (List DeptStat)
  | [] => some []
  | j :: js =>
    match deptOfJson j, deptsOfJson js with
    | some d, some ds => some (d :: ds)
    | _, _ => none

/-- Modelled from the spec: the re-parser for the whole structured report
document (see `deptOfJson`). -/
def statsOfJson (j : Json) : Option StatsReport :=
  match j with
  | .obj [ ("total_employees", te), ("emails_sent", es), ("links_clicked", lc)
         , ("phishing_reported", pr), ("click_rate", .num cr)
         , ("report_rate", .num rr), ("department_stats", .arr ds) ] =>
    match jsonNat te, jsonNat es, jsonNat lc, jsonNat pr, deptsOfJson ds with
    | some ten, some esn, some lcn, some prn, some dsn =>
      some { total_employees := ten, emails_sent := esn, links_clicked := lcn,
             phishing_reported := prn, click_rate := cr, report_rate := rr,
             department_stats := dsn }
    | _, _, _, _, _ => none
  | _ => none

/-- The document `export_report` writes.  The tabular (`csv`) branch carries
the report whose rows it prints — the spec (§1) excludes CSV text
serialization mechanics from scope; the structured (`json`) branch carries
the JSON document itself. -/
inductive ExportDoc where
  | tabular : StatsReport → ExportDoc
  | structured : Json → ExportDoc
deriving Repr

/-- Method `export_report(campaign_id, format)`: compute the stats, derive the
deterministic file name `report_<cid[:8]>.<format>`, and write the document;
an unsupported format raises `ValueError` before any file is opened. -/
def export_report (s : Store) (cid fmt : String) : Except String (String × ExportDoc) :=
  let stats := get_stats s cid
  let filename := "report_" ++ (cid.take 8) ++ "." ++ fmt
  if fmt = "csv" then .ok (filename, .tabular stats)
  else if fmt = "json" then .ok (filename, .structured (statsToJson stats))
  else .error ("Неподдерживаемый формат: " ++ fmt)

/-! ### Derived predicates -/

/-- The §3 referential state of a store, weakened to what the code maintains:
every result row either references an employee row of its own campaign, or
references no employee row at all. -/
def okOrDangling (s : Store) : Prop :=
  ∀ r ∈ s.results,
    (∃ e ∈ s.employees, e.id = r.employee_id ∧ e.campaign_id = r.campaign_id) ∨
    (∀ e ∈ s.employees, e.id ≠ r.employee_id)

instance (s : Store) : Decidable (okOrDangling s) := by
  unfold okOrDangling
  infer_instance

/-! ### Concrete stores used as witnesses -/

/-- A campaign row as `create_campaign "Q1" "password_reset"` writes it. -/
def demoCampaign : CampaignRow :=
  { id := "c1", name := "Q1", template := "password_reset",
    created := "2026-01-01T00:00:00", status := "active" }

/-- A store holding one campaign and nothing else. -/
def demoEmpty : Store := ⟨[demoCampaign], [], []⟩

/-- A store with no rows at all. -/
def emptyStore : Store := ⟨[], [], []⟩

/-- The §8 scenario store after some events: three enrolled employees,
alice clicked, bob reported. -/
def demoS1 : Store :=
  ⟨[demoCampaign],
   [⟨"e1", "alice@x.com", "Alice", "Eng", "c1"⟩,
    ⟨"e2", "bob@x.com", "Bob", "Eng", "c1"⟩,
    ⟨"e3", "carol@x.com", "Carol", "Sales", "c1"⟩],
   [⟨"r1", "e1", "c1", false, true, false, some "T1", none, "t1"⟩,
    ⟨"r2", "e2", "c1", false, false, true, none, some "T2", "t2"⟩,
    ⟨"r3", "e3", "c1", false, false, false, none, none, "t3"⟩]⟩

/-- A CSV record for alice. -/
def recAlice : Record :=
  [("email", "alice@x.com"), ("name", "Alice"), ("department", "Eng")]

/-- The store after alice was enrolled once into `demoEmpty`. -/
def demoAlice : Store :=
  ⟨[demoCampaign],
   [⟨"e1", "alice@x.com", "Alice", "Eng", "c1"⟩],
   [⟨"r1", "e1", "c1", false, false, false, none, none, "t1"⟩]⟩

/-- The store `add_employees` produces when alice is re-enrolled into
`demoAlice`: one employee row, two result rows, the second referencing the
non-existent employee id `e2`. -/
def demoAliceTwice : Store :=
  ⟨[demoCampaign],
   [⟨"e1", "alice@x.com", "Alice", "Eng", "c1"⟩],
   [⟨"r1", "e1", "c1", false, false, false, none, none, "t1"⟩,
    ⟨"r2", "e2", "c1", false, false, false, none, none, "t2"⟩]⟩

/-! ### List helper lemmas -/

theorem zip_map_snd_sublist {α β : Type} :
    ∀ (xs : List α) (ys : List β), ((xs.zip ys).map Prod.snd).Sublist ys := by
  intro xs
  induction xs with
  | nil => intro ys; simp
  | cons x xs ih =>
    intro ys
    cases ys with
    | nil => simp
    | cons y ys => simpa using (ih ys).cons₂ y

theorem any_fst {α β : Type} (l : List (α × β)) (q : α → Bool) :
    (l.any (fun p => q p.1)) = (l.map Prod.fst).any q := by
  induction l with
  | nil => rfl
  | cons p ps ih => simp [List.any_cons, ih]

theorem zip_map_fst_eq {α β : Type} :
    ∀ (xs : List α) (ys : List β), xs.length = ys.length →
      (xs.zip ys).map Prod.fst = xs := by
  intro xs
  induction xs with
  | nil => intro ys _; simp
  | cons x xs ih =>
    intro ys hl
    cases ys with
    | nil => simp at hl
    | cons y ys =>
      simp only [List.length_cons, Nat.add_right_cancel_iff] at hl
      simp [ih ys hl]

/-! ### Lemmas about the enrollment loop -/

theorem insertEmployee_spec (emps : List EmployeeRow) (e : EmployeeRow) :
    ((∃ x ∈ emps, x.id = e.id ∨ x.email = e.email) ∧ insertEmployee emps e = emps)
    ∨ ((∀ x ∈ emps, x.id ≠ e.id ∧ x.email ≠ e.email) ∧
        insertEmployee emps e = emps ++ [e]) := by
  unfold insertEmployee
  by_cases h : emps.any (fun x => x.id = e.id || x.email = e.email)
  · left
    refine ⟨?_, if_pos h⟩
    simpa using h
  · right
    refine ⟨?_, if_neg h⟩
    simp only [List.any_eq_true, Bool.or_eq_true, decide_eq_true_eq, not_exists] at h
    intro x hx
    have := h x
    simp only [hx, true_and] at this
    exact ⟨fun hc => this (Or.inl hc), fun hc => this (Or.inr hc)⟩

theorem enrollLoop_cons_ok {cid : String} {rec : Record} {i : EnrollIds}
    {rest : List (Record × EnrollIds)} {st st2 : List EmployeeRow × List ResultRow}
    (h : enrollLoop cid st ((rec, i) :: rest) = some st2) :
    enrollLoop cid (insertEmployee st.1 (newEmp cid rec i),
      st.2 ++ [mkResult cid i]) rest = some st2 := by
  unfold enrollLoop enrollStep at h
  by_cases hc : st.2.any (fun r => r.id = i.result_id || r.token = i.token)
  · rw [if_pos hc] at h
    simp at h
  · rw [if_neg hc] at h
    exact h

theorem enrollLoop_results {cid : String} :
    ∀ (pairs : List (Record × EnrollIds)) (st st2 : List EmployeeRow × List ResultRow),
      enrollLoop cid st pairs = some st2 →
      st2.2 = st.2 ++ pairs.map (fun p => mkResult cid p.2) := by
  intro pairs
  induction pairs with
  | nil =>
    intro st st2 h
    unfold enrollLoop at h
    simp at h
    simp [← h]
  | cons p rest ih =>
    intro st st2 h
    rcases p with ⟨rec, i⟩
    have h2 := enrollLoop_cons_ok h
    have h3 := ih _ _ h2
    simp only at h3
    rw [h3]
    simp

theorem filter_email_append (emps : List EmployeeRow) (e : EmployeeRow) (em : String) :
    ((emps ++ [e]).filter (fun x => x.email = em)).length =
      (emps.filter (fun x => x.email = em)).length +
        (if e.email = em then 1 else 0) := by
  rw [List.filter_append, List.length_append]
  by_cases h : e.email = em <;> simp [h]

/-- Once an email is present, the loop never adds a second employee row with
it: the filtered row count is unchanged. -/
theorem enrollLoop_email_count_ge {cid em : String} :
    ∀ (pairs : List (Record × EnrollIds)) (st st2 : List EmployeeRow × List ResultRow),
      enrollLoop cid st pairs = some st2 →
      1 ≤ (st.1.filter (fun e => e.email = em)).length →
      (st2.1.filter (fun e => e.email = em)).length =
        (st.1.filter (fun e => e.email = em)).length := by
  intro pairs
  induction pairs with
  | nil =>
    intro st st2 h _
    unfold enrollLoop at h
    simp at h
    simp [← h]
  | cons p rest ih =>
    intro st st2 h hge
    rcases p with ⟨rec, i⟩
    have h2 := enrollLoop_cons_ok h
    rcases insertEmployee_spec st.1 (newEmp cid rec i) with ⟨_, heq⟩ | ⟨hall, heq⟩
    · rw [heq] at h2
      exact ih (st.1, st.2 ++ [mkResult cid i]) st2 h2 hge
    · -- the new employee was appended, so its email differs from every
      -- present one, in particular from `em` (some row with `em` exists)
      obtain ⟨x, hx⟩ := List.exists_mem_of_length_pos (Nat.lt_of_lt_of_le Nat.zero_lt_one hge)
      rw [List.mem_filter, decide_eq_true_eq] at hx
      have hne : (newEmp cid rec i).email ≠ em := by
        intro he
        exact (hall x hx.1).2 (by rw [hx.2, he])
      rw [heq] at h2
      have h3 := ih (st.1 ++ [newEmp cid rec i], st.2 ++ [mkResult cid i]) st2 h2
      simp only [filter_email_append, if_neg hne, Nat.add_zero] at h3
      exact h3 hge

/-- Enrolling from a store where `em` is absent leaves exactly one employee
row with email `em` when some record carries it, and none otherwise —
provided the generated employee ids are fresh and pairwise distinct. -/
theorem enrollLoop_email_count_zero {cid em : String} :
    ∀ (pairs : List (Record × EnrollIds)) (st st2 : List EmployeeRow × List ResultRow),
      enrollLoop cid st pairs = some st2 →
      (∀ p ∈ pairs, ∀ e ∈ st.1, e.id ≠ p.2.emp_id) →
      (pairs.map (fun p => p.2.emp_id)).Nodup →
      (st.1.filter (fun e => e.email = em)).length = 0 →
      (st2.1.filter (fun e => e.email = em)).length =
        (if pairs.any (fun p => recEmail p.1 = em) then 1 else 0) := by
  intro pairs
  induction pairs with
  | nil =>
    intro st st2 h _ _ h0
    unfold enrollLoop at h
    simp at h
    simp [← h, h0]
  | cons p rest ih =>
    intro st st2 h hfresh hnodup h0
    rcases p with ⟨rec, i⟩
    have h2 := enrollLoop_cons_ok h
    have hmap := hnodup
    rw [List.map_cons, List.nodup_cons] at hmap
    obtain ⟨hn, hrest⟩ := hmap
    have hnomem : ∀ x ∈ st.1, x.email ≠ em := by
      intro x hx he
      have hmem : x ∈ st.1.filter (fun e => e.email = em) := by
        rw [List.mem_filter, decide_eq_true_eq]; exact ⟨hx, he⟩
      rw [List.length_eq_zero] at h0
      simp [h0] at hmem
    by_cases hem : recEmail rec = em
    · -- this record carries `em`: the employee row is inserted, and stays
      -- the only one with that email
      have hb : (decide (recEmail rec = em)) = true := decide_eq_true hem
      rcases insertEmployee_spec st.1 (newEmp cid rec i) with ⟨⟨x, hx, hxe⟩, _⟩ | ⟨_, heq⟩
      · rcases hxe with hid | hmail
        · exact absurd hid (hfresh (rec, i) (List.mem_cons_self _ _) x hx)
        · exact absurd (by simpa [newEmp, hem] using hmail) (hnomem x hx)
      · rw [heq] at h2
        have hone : (((st.1 ++ [newEmp cid rec i]).filter
            (fun e => e.email = em)).length) = 1 := by
          rw [filter_email_append, h0, if_pos (by simpa [newEmp] using hem)]
        have hkeep := enrollLoop_email_count_ge rest _ _ h2 (by rw [hone])
        simp only at hkeep
        rw [hone] at hkeep
        rw [List.any_cons, hb, Bool.true_or, if_pos rfl]
        exact hkeep
    · -- this record carries another email: the count stays zero
      have hb : (decide (recEmail rec = em)) = false := decide_eq_false hem
      rw [List.any_cons, hb, Bool.false_or]
      rcases insertEmployee_spec st.1 (newEmp cid rec i) with ⟨_, heq⟩ | ⟨_, heq⟩ <;>
        rw [heq] at h2
      · exact ih (st.1, st.2 ++ [mkResult cid i]) st2 h2
          (fun p hp e he => hfresh p (List.mem_cons_of_mem _ hp) e he) hrest h0
      · have hz : ((st.1 ++ [newEmp cid rec i]).filter
            (fun e => e.email = em)).length = 0 := by
          rw [filter_email_append, h0, if_neg (by simpa [newEmp] using hem)]
        refine ih (st.1 ++ [newEmp cid rec i], st.2 ++ [mkResult cid i]) st2 h2
          ?_ hrest hz
        intro p hp e he
        rcases List.mem_append.mp he with hmem | hmem
        · exact hfresh p (List.mem_cons_of_mem _ hp) e hmem
        · rcases List.mem_singleton.mp hmem with rfl
          intro hc
          apply hn
          show i.emp_id ∈ _
          have hc2 : i.emp_id = p.2.emp_id := hc
          rw [hc2]
          exact List.mem_map_of_mem _ hp

/-- The enrollment loop preserves the consistent-or-dangling shape of the
result rows, given fresh and pairwise-distinct generated employee ids. -/
theorem enrollLoop_okOrDangling {cid : String} :
    ∀ (pairs : List (Record × EnrollIds)) (st st2 : List EmployeeRow × List ResultRow),
      enrollLoop cid st pairs = some st2 →
      (∀ r ∈ st.2, (∃ e ∈ st.1, e.id = r.employee_id ∧ e.campaign_id = r.campaign_id)
        ∨ (∀ e ∈ st.1, e.id ≠ r.employee_id)) →
      (∀ p ∈ pairs, (∀ e ∈ st.1, e.id ≠ p.2.emp_id) ∧
        (∀ r ∈ st.2, r.employee_id ≠ p.2.emp_id)) →
      (pairs.map (fun p => p.2.emp_id)).Nodup →
      (∀ r ∈ st2.2, (∃ e ∈ st2.1, e.id = r.employee_id ∧ e.campaign_id = r.campaign_id)
        ∨ (∀ e ∈ st2.1, e.id ≠ r.employee_id)) := by
  intro pairs
  induction pairs with
  | nil =>
    intro st st2 h hinv _ _
    unfold enrollLoop at h
    simp at h
    rw [← h]
    exact hinv
  | cons p rest ih =>
    intro st st2 h hinv hfresh hnodup
    rcases p with ⟨rec, i⟩
    have h2 := enrollLoop_cons_ok h
    have hmap := hnodup
    rw [List.map_cons, List.nodup_cons] at hmap
    obtain ⟨hn, hrest⟩ := hmap
    obtain ⟨hfid, hfres⟩ := hfresh (rec, i) (List.mem_cons_self _ _)
    have hfreshRest : ∀ p ∈ rest, (∀ r ∈ st.2 ++ [mkResult cid i],
        r.employee_id ≠ p.2.emp_id) := by
      intro p hp r hr
      rcases List.mem_append.mp hr with hmem | hmem
      · exact (hfresh p (List.mem_cons_of_mem _ hp)).2 r hmem
      · rcases List.mem_singleton.mp hmem with rfl
        show i.emp_id ≠ p.2.emp_id
        intro hc
        exact hn (by rw [hc]; exact List.mem_map_of_mem _ hp)
    rcases insertEmployee_spec st.1 (newEmp cid rec i) with ⟨_, heq⟩ | ⟨_, heq⟩ <;>
      rw [heq] at h2
    · -- employee insert ignored: the fresh result dangles
      refine ih (st.1, st.2 ++ [mkResult cid i]) st2 h2 ?_ ?_ hrest
      · intro r hr
        rcases List.mem_append.mp hr with hmem | hmem
        · exact hinv r hmem
        · rcases List.mem_singleton.mp hmem with rfl
          right
          intro e he
          exact hfid e he
      · intro p hp
        exact ⟨(hfresh p (List.mem_cons_of_mem _ hp)).1, hfreshRest p hp⟩
    · -- employee inserted: the fresh result is consistent with it
      refine ih (st.1 ++ [newEmp cid rec i], st.2 ++ [mkResult cid i]) st2 h2 ?_ ?_ hrest
      · intro r hr
        rcases List.mem_append.mp hr with hmem | hmem
        · rcases hinv r hmem with ⟨e, he, h1, hc⟩ | hdang
          · exact Or.inl ⟨e, List.mem_append_left _ he, h1, hc⟩
          · right
            intro e he
            rcases List.mem_append.mp he with hmem2 | hmem2
            · exact hdang e hmem2
            · rcases List.mem_singleton.mp hmem2 with rfl
              show i.emp_id ≠ r.employee_id
              exact fun hc => (hfres r hmem) hc.symm
        · rcases List.mem_singleton.mp hmem with rfl
          exact Or.inl ⟨newEmp cid rec i,
            List.mem_append_right _ (List.mem_singleton_self _), rfl, rfl⟩
      · intro p hp
        refine ⟨?_, hfreshRest p hp⟩
        intro e he
        rcases List.mem_append.mp he with hmem | hmem
        · exact (hfresh p (List.mem_cons_of_mem _ hp)).1 e hmem
        · rcases List.mem_singleton.mp hmem with rfl
          show i.emp_id ≠ p.2.emp_id
          intro hc
          exact hn (by rw [hc]; exact List.mem_map_of_mem _ hp)

/-- Destructuring a successful `add_employees` call: validation passed and the
new store is the loop's output. -/
theorem add_employees_ok {s : Store} {cid : String} {records : List Record}
    {ids : List EnrollIds} {s2 : Store}
    (h : add_employees s cid records ids = .ok s2) :
    records.all hasRequired = true ∧ records ≠ [] ∧
    ∃ st, enrollLoop cid (s.employees, s.results) (records.zip ids) = some st ∧
      s2.campaigns = s.campaigns ∧ s2.employees = st.1 ∧ s2.results = st.2 := by
  unfold add_employees at h
  by_cases hall : records.all hasRequired
  · rw [hall] at h
    simp only [Bool.not_true, Bool.false_eq_true, if_false] at h
    by_cases hemp : records.isEmpty
    · rw [if_pos hemp] at h
      simp at h
    · rw [if_neg hemp] at h
      cases hloop : enrollLoop cid (s.employees, s.results) (records.zip ids) with
      | none => rw [hloop] at h; simp at h
      | some st =>
        rw [hloop] at h
        simp only [Except.ok.injEq] at h
        refine ⟨hall, fun hc => hemp (by simp [hc]), st, rfl, ?_, ?_, ?_⟩ <;>
          simp [← h]
  · rw [Bool.not_eq_true] at hall
    rw [hall] at h
    simp at h

/-! ### Claims -/

/-- C1, counterexample: the claim «no Result ever references a non-existent
Employee» fails.  Starting from `demoAlice` — a store whose single Result is
consistent — re-enrolling alice's email makes `add_employees` insert a Result
whose `employee_id` is the freshly generated `e2`, while the
`INSERT OR IGNORE` drops the corresponding Employee row; the resulting store
`demoAliceTwice` has a Result row that references no Employee at all. -/
theorem claim_C1_counterexample :
    add_employees demoAlice "c1" [recAlice] [⟨"e2", "r2", "t2"⟩] = .ok demoAliceTwice
    ∧ (∀ r ∈ demoAlice.results, ∃ e ∈ demoAlice.employees,
        e.id = r.employee_id ∧ e.campaign_id = r.campaign_id)
    ∧ ¬ (∀ r ∈ demoAliceTwice.results, ∃ e ∈ demoAliceTwice.employees,
        e.id = r.employee_id ∧ e.campaign_id = r.campaign_id) :=
  ⟨by rfl, by decide, by decide⟩

/-- C1, amended: every Result row present after `add_employees` either
references an existing Employee row whose `campaign_id` equals the Result's
own `campaign_id`, or references no Employee row at all (the latter arises
exactly when a record re-enrolls an already-present email); in particular no
Result ever references an Employee of a different campaign.  Hypotheses: the
prior store satisfied the same shape, and the generated employee ids are
fresh for the store and pairwise distinct (the `uuid.uuid4()` assumption). -/
theorem claim_C1_amended_ok_or_dangling (s : Store) (cid : String)
    (records : List Record) (ids : List EnrollIds) (s2 : Store)
    (h : add_employees s cid records ids = .ok s2)
    (hs : okOrDangling s)
    (hfresh : ∀ i ∈ ids, (∀ e ∈ s.employees, e.id ≠ i.emp_id) ∧
      (∀ r ∈ s.results, r.employee_id ≠ i.emp_id))
    (hnodup : (ids.map (fun i => i.emp_id)).Nodup) :
    okOrDangling s2 := by
  obtain ⟨-, -, st, hloop, _, hemp, hres⟩ := add_employees_ok h
  have hsub : ((records.zip ids).map (fun p => p.2.emp_id)).Sublist
      (ids.map (fun i => i.emp_id)) := by
    have h1 := (zip_map_snd_sublist records ids).map (fun i : EnrollIds => i.emp_id)
    simpa [List.map_map, Function.comp] using h1
  have hloopinv := enrollLoop_okOrDangling (records.zip ids)
    (s.employees, s.results) st hloop hs
    (fun p hp => hfresh p.2 (List.of_mem_zip hp).2)
    (hnodup.sublist hsub)
  unfold okOrDangling
  rw [hemp, hres]
  exact hloopinv

/-- C1 witness: the amended invariant holds concretely for the duplicate
re-enrollment that produced `demoAliceTwice`. -/
theorem claim_C1_witness : okOrDangling demoAliceTwice :=
  claim_C1_amended_ok_or_dangling demoAlice "c1" [recAlice] [⟨"e2", "r2", "t2"⟩]
    demoAliceTwice (by rfl) (by decide) (by decide) (by decide)

/-- C2: a successful `add_employees` call appends exactly one Result row per
record to the campaign — `N` records give `N` new Results, duplicates
included — while an email absent before the call ends up with exactly one
Employee row when some record carries it (and none otherwise), however many
records repeat it.  Hypotheses: one generated id triple per record, fresh
and pairwise-distinct employee ids. -/
theorem claim_C2_duplicate_enrollment (s : Store) (cid em : String)
    (records : List Record) (ids : List EnrollIds) (s2 : Store)
    (h : add_employees s cid records ids = .ok s2)
    (hlen : records.length = ids.length)
    (hfresh : ∀ i ∈ ids, ∀ e ∈ s.employees, e.id ≠ i.emp_id)
    (hnodup : (ids.map (fun i => i.emp_id)).Nodup)
    (hnew : (s.employees.filter (fun e => e.email = em)).length = 0) :
    (s2.results.filter (fun r => r.campaign_id = cid)).length
      = (s.results.filter (fun r => r.campaign_id = cid)).length + records.length
    ∧ (s2.employees.filter (fun e => e.email = em)).length
      = (if records.any (fun rec => recEmail rec = em) then 1 else 0) := by
  obtain ⟨-, -, st, hloop, -, hemp, hres⟩ := add_employees_ok h
  constructor
  · rw [hres, enrollLoop_results _ _ _ hloop]
    simp only
    rw [List.filter_append, List.length_append]
    have hkeep : (((records.zip ids).map (fun p => mkResult cid p.2)).filter
        (fun r => r.campaign_id = cid)) =
        (records.zip ids).map (fun p => mkResult cid p.2) := by
      rw [List.filter_eq_self]
      intro a ha
      rw [List.mem_map] at ha
      obtain ⟨p, _, rfl⟩ := ha
      simp [mkResult]
    rw [hkeep, List.length_map, List.length_zip, hlen, min_self]
  · rw [hemp]
    have hsub : ((records.zip ids).map (fun p => p.2.emp_id)).Sublist
        (ids.map (fun i => i.emp_id)) := by
      have h1 := (zip_map_snd_sublist records ids).map (fun i : EnrollIds => i.emp_id)
      simpa [List.map_map, Function.comp] using h1
    have h3 := enrollLoop_email_count_zero (records.zip ids)
      (s.employees, s.results) st hloop
      (fun p hp => hfresh p.2 (List.of_mem_zip hp).2)
      (hnodup.sublist hsub) hnew
    simp only at h3
    rw [h3]
    have hfst : (records.zip ids).map Prod.fst = records := zip_map_fst_eq records ids hlen
    rw [any_fst (records.zip ids) (fun rec => recEmail rec = em), hfst]

/-- C2 witness: enrolling alice's record twice into the empty campaign store
leaves two Result rows for the campaign and exactly one Employee row with her
email. -/
theorem claim_C2_witness :
    (demoAliceTwice.results.filter (fun r => r.campaign_id = "c1")).length = 2
    ∧ (demoAliceTwice.employees.filter (fun e => e.email = "alice@x.com")).length = 1 := by
  have h := claim_C2_duplicate_enrollment demoEmpty "c1" "alice@x.com"
    [recAlice, recAlice] [⟨"e1", "r1", "t1"⟩, ⟨"e2", "r2", "t2"⟩] demoAliceTwice
    (by rfl) (by decide) (by decide) (by decide) (by decide)
  refine ⟨?_, ?_⟩
  · rw [h.1]; decide
  · rw [h.2]; decide

/-- C3: `add_employees` validates before writing — when a record lacks one of
the required `email`, `name`, `department` fields, or the record set is
empty, the call returns the corresponding error, and (by the `Except` shape
of the embedding, which models the transaction rollback) no Employee or
Result row is written: an `.error` outcome carries no modified store. -/
theorem claim_C3_validate_then_commit (s : Store) (cid : String)
    (records : List Record) (ids : List EnrollIds)
    (h : records = [] ∨ ∃ rec ∈ records, hasRequired rec = false) :
    ∃ msg, add_employees s cid records ids = .error msg := by
  rcases h with rfl | ⟨rec, hmem, hbad⟩
  · exact ⟨"Ошибка чтения CSV: Файл не содержит данных", by rfl⟩
  · refine ⟨"Ошибка чтения CSV: CSV должен содержать поля: email, name, department", ?_⟩
    unfold add_employees
    have hall : records.all hasRequired = false := by
      rw [List.all_eq_false]
      exact ⟨rec, hmem, by rw [hbad]; exact Bool.false_ne_true⟩
    rw [hall]
    simp

/-- C3 witness: the empty record set and a record missing `department` both
fail with an error. -/
theorem claim_C3_witness :
    (∃ msg, add_employees demoEmpty "c1" [] [] = .error msg)
    ∧ (∃ msg, add_employees demoEmpty "c1" [[("email", "a@x.com"), ("name", "A")]]
        [⟨"e9", "r9", "t9"⟩] = .error msg) :=
  ⟨claim_C3_validate_then_commit demoEmpty "c1" [] [] (Or.inl rfl),
   claim_C3_validate_then_commit demoEmpty "c1" [[("email", "a@x.com"), ("name", "A")]]
     [⟨"e9", "r9", "t9"⟩] (Or.inr ⟨_, List.mem_singleton_self _, by decide⟩)⟩

/-- C4: `get_stats` never divides by zero — with no Result rows for the
campaign it returns both rates as 0, and with a positive total the rates are
the click/report counts as percentages of the total, rounded to two decimal
places. -/
theorem claim_C4_rates_guarded (s : Store) (cid : String) :
    ((get_stats s cid).total_employees = 0 →
      (get_stats s cid).click_rate = 0 ∧ (get_stats s cid).report_rate = 0)
    ∧ (0 < (get_stats s cid).total_employees →
      (get_stats s cid).click_rate = round2 (((get_stats s cid).links_clicked : ℚ)
        / ((get_stats s cid).total_employees : ℚ) * 100)
      ∧ (get_stats s cid).report_rate = round2 (((get_stats s cid).phishing_reported : ℚ)
        / ((get_stats s cid).total_employees : ℚ) * 100)) := by
  constructor
  · intro h0
    have h0' : (s.results.filter (fun r => r.campaign_id = cid)).length = 0 := h0
    constructor <;> simp [get_stats, h0']
  · intro hpos
    have hpos' : 0 < (s.results.filter (fun r => r.campaign_id = cid)).length := hpos
    constructor <;> simp [get_stats, hpos']

/-- C4 witness: the campaign with no Results yields zero rates without error,
and the §8 scenario store (3 results, 1 click, 1 report) yields the rounded
percentage rates. -/
theorem claim_C4_witness :
    ((get_stats demoEmpty "c1").click_rate = 0 ∧ (get_stats demoEmpty "c1").report_rate = 0)
    ∧ ((get_stats demoS1 "c1").click_rate
        = round2 (((get_stats demoS1 "c1").links_clicked : ℚ)
          / ((get_stats demoS1 "c1").total_employees : ℚ) * 100)
      ∧ (get_stats demoS1 "c1").report_rate
        = round2 (((get_stats demoS1 "c1").phishing_reported : ℚ)
          / ((get_stats demoS1 "c1").total_employees : ℚ) * 100)) :=
  ⟨(claim_C4_rates_guarded demoEmpty "c1").1 (by decide),
   (claim_C4_rates_guarded demoS1 "c1").2 (by decide)⟩

/-- C6: `simulate_click` with an unknown token changes nothing and reports
not-found; with a known token it reports success and sets `link_clicked` and
the click timestamp on that Result; and a repeated click is idempotent — a
second call gives exactly the state a single call with the later timestamp
gives (the flag stays set, the timestamp refreshes), with no error. -/
theorem claim_C6_simulate_click (s : Store) (tok n1 n2 : String) :
    ((∀ r ∈ s.results, r.token ≠ tok) → simulate_click s tok n1 = (s, false))
    ∧ ((∃ r ∈ s.results, r.token = tok) →
        (simulate_click s tok n1).2 = true
        ∧ (∀ r ∈ (simulate_click s tok n1).1.results, r.token = tok →
            r.link_clicked = true ∧ r.clicked_at = some n1))
    ∧ simulate_click (simulate_click s tok n1).1 tok n2 = simulate_click s tok n2 := by
  refine ⟨fun hno => ?_, fun hex => ⟨?_, ?_⟩, ?_⟩
  · unfold simulate_click
    have hmap := List.map_congr_left (l := s.results)
      (f := fun r => if r.token = tok then
        ({ r with link_clicked := true, clicked_at := some n1 } : ResultRow) else r)
      (g := id) (fun r hr => by simp [hno r hr])
    rw [hmap, List.map_id]
    have hany : s.results.any (fun r => r.token = tok) = false := by
      rw [List.any_eq_false]
      intro r hr
      simp [hno r hr]
    rw [hany]
  · obtain ⟨r0, hr0, htok⟩ := hex
    show (s.results.any fun r => r.token = tok) = true
    rw [List.any_eq_true]
    exact ⟨r0, hr0, by simp [htok]⟩
  · intro r hr htok2
    have hr' : r ∈ s.results.map (fun r => if r.token = tok then
        ({ r with link_clicked := true, clicked_at := some n1 } : ResultRow) else r) := hr
    rw [List.mem_map] at hr'
    obtain ⟨r0, _, hfr⟩ := hr'
    by_cases hc : r0.token = tok
    · rw [if_pos hc] at hfr
      rw [← hfr]
      exact ⟨rfl, rfl⟩
    · rw [if_neg hc] at hfr
      rw [← hfr] at htok2
      exact absurd htok2 hc
  · unfold simulate_click
    simp only [Prod.mk.injEq]
    constructor
    · have hres : (s.results.map (fun r => if r.token = tok then
          ({ r with link_clicked := true, clicked_at := some n1 } : ResultRow) else r)).map
            (fun r => if r.token = tok then
              ({ r with link_clicked := true, clicked_at := some n2 } : ResultRow) else r)
          = s.results.map (fun r => if r.token = tok then
              ({ r with link_clicked := true, clicked_at := some n2 } : ResultRow) else r) := by
        rw [List.map_map]
        apply List.map_congr_left
        intro r _
        by_cases hc : r.token = tok <;> simp [Function.comp, hc]
      rw [hres]
    · rw [List.any_map]
      have hp : ((fun r : ResultRow => decide (r.token = tok)) ∘
          (fun r => if r.token = tok then
            ({ r with link_clicked := true, clicked_at := some n1 } : ResultRow) else r))
          = (fun r : ResultRow => decide (r.token = tok)) := by
        funext r
        by_cases hc : r.token = tok <;> simp [Function.comp, hc]
      rw [hp]

/-- C6 witness: in the scenario store, a bogus token leaves the store intact
and reports not-found; alice's token `t1` reports success and sets the flag
and timestamp; double-clicking `t1` equals a single click with the second
timestamp. -/
theorem claim_C6_witness :
    simulate_click demoS1 "zz" "T3" = (demoS1, false)
    ∧ ((simulate_click demoS1 "t1" "T3").2 = true
      ∧ (∀ r ∈ (simulate_click demoS1 "t1" "T3").1.results, r.token = "t1" →
          r.link_clicked = true ∧ r.clicked_at = some "T3"))
    ∧ simulate_click (simulate_click demoS1 "t1" "T3").1 "t1" "T4"
        = simulate_click demoS1 "t1" "T4" :=
  ⟨(claim_C6_simulate_click demoS1 "zz" "T3" "T4").1 (by decide),
   (claim_C6_simulate_click demoS1 "t1" "T3" "T4").2.1 (by decide),
   (claim_C6_simulate_click demoS1 "t1" "T3" "T4").2.2⟩

/-- C7: `create_campaign` with a template name outside the catalog fails with
the «unknown template» error and writes nothing (the `.error` outcome carries
no store); with a valid template it appends exactly one campaign row holding
the given id, name, template, timestamp and the default `active` status,
returns that id, and — when the generated id is fresh — the row is
retrievable by id exactly as stored. -/
theorem claim_C7_create_campaign (s : Store) (name tmpl cid now : String)
    (row : CampaignRow)
    (hrow : row = { id := cid, name := name, template := tmpl,
                    created := now, status := "active" }) :
    (templatesGet tmpl = none →
      create_campaign s name tmpl cid now = .error ("Неизвестный шаблон: " ++ tmpl))
    ∧ ((∃ t, templatesGet tmpl = some t) →
      create_campaign s name tmpl cid now
        = .ok (cid, { s with campaigns := s.campaigns ++ [row] })
      ∧ ((∀ c ∈ s.campaigns, c.id ≠ cid) →
        (s.campaigns ++ [row]).find? (fun c => c.id = cid) = some row)) := by
  subst hrow
  constructor
  · intro hnone
    unfold create_campaign
    rw [hnone]
    rfl
  · rintro ⟨t, ht⟩
    constructor
    · unfold create_campaign
      rw [ht]
      rfl
    · intro hfreshc
      rw [List.find?_append]
      have h1 : s.campaigns.find? (fun c => c.id = cid) = none := by
        rw [List.find?_eq_none]
        intro c hc
        simp [hfreshc c hc]
      rw [h1, Option.none_or]
      exact List.find?_cons_of_pos _ (by simp)

/-- The campaign row `create_campaign "Q1" "password_reset"` writes when the
generated id is `c9` and the timestamp `T0`. -/
def c9row : CampaignRow :=
  { id := "c9", name := "Q1", template := "password_reset",
    created := "T0", status := "active" }

/-- C7 witness: an unknown template name errors; `password_reset` creates and
returns `c9`, and the row is found again exactly as stored. -/
theorem claim_C7_witness :
    create_campaign emptyStore "Q1" "bogus" "c9" "T0"
      = .error ("Неизвестный шаблон: " ++ "bogus")
    ∧ create_campaign emptyStore "Q1" "password_reset" "c9" "T0"
      = .ok ("c9", { emptyStore with campaigns := emptyStore.campaigns ++ [c9row] })
    ∧ (emptyStore.campaigns ++ [c9row]).find? (fun c => c.id = "c9") = some c9row := by
  have h1 := (claim_C7_create_campaign emptyStore "Q1" "bogus" "c9" "T0" _ rfl).1 (by rfl)
  have h2 := (claim_C7_create_campaign emptyStore "Q1" "password_reset" "c9" "T0" c9row rfl).2
    ⟨tmplPasswordReset, by rfl⟩
  exact ⟨h1, h2.1, h2.2 (by decide)⟩

/-- Destructuring a successful `generate_emails` call: the written documents
render the join triples with the campaign's template, and exactly the
results whose token was rendered get their `email_sent` flag set. -/
theorem generate_emails_ok {s : Store} {cid outDir : String} {c : CampaignRow}
    {t : EmailTemplate} {docs : List EmailDoc} {s2 : Store}
    (hc : s.campaigns.find? (fun x => x.id = cid) = some c)
    (ht : templatesGet c.template = some t)
    (h : generate_emails s cid outDir = .ok (docs, s2)) :
    docs = (joinRows s cid).map (fun p => renderDoc outDir t c.name p.1.email p.2.token)
    ∧ s2.campaigns = s.campaigns ∧ s2.employees = s.employees
    ∧ s2.results = s.results.map (fun r =>
        if ((joinRows s cid).map (fun p => p.2.token)).contains r.token
        then { r with email_sent := true } else r) := by
  unfold generate_emails at h
  rw [hc] at h
  simp only at h
  rw [ht] at h
  simp only [Except.ok.injEq, Prod.mk.injEq] at h
  obtain ⟨hdocs, hs2⟩ := h
  rw [← hdocs, ← hs2]
  exact ⟨rfl, rfl, rfl, rfl⟩

/-- Membership in the employee/result join. -/
theorem mem_joinRows {s : Store} {cid : String} {p : EmployeeRow × ResultRow} :
    p ∈ joinRows s cid ↔ p.1 ∈ s.employees ∧ p.1.campaign_id = cid ∧
      p.2 ∈ s.results ∧ p.2.employee_id = p.1.id := by
  unfold joinRows
  rw [List.mem_flatMap]
  constructor
  · rintro ⟨e, he, hmem⟩
    rw [List.mem_map] at hmem
    obtain ⟨r, hr, heq⟩ := hmem
    rw [List.mem_filter, decide_eq_true_eq] at he hr
    rw [← heq]
    exact ⟨he.1, he.2, hr.1, hr.2⟩
  · rintro ⟨h1, h2, h3, h4⟩
    refine ⟨p.1, ?_, ?_⟩
    · rw [List.mem_filter, decide_eq_true_eq]
      exact ⟨h1, h2⟩
    · rw [List.mem_map]
      exact ⟨p.2, by rw [List.mem_filter, decide_eq_true_eq]; exact ⟨h3, h4⟩, rfl⟩

/-- C5: for every `(email, name, token)` triple the join fetches,
`generate_emails` writes a document whose body is the template body with the
literal `{link}` placeholder replaced (every occurrence) by the tracking URL
`http://localhost:8080/track/<token>`, and in the resulting store the Result
carrying that token has `email_sent = true`. -/
theorem claim_C5_render_and_mark (s : Store) (cid outDir : String)
    (c : CampaignRow) (t : EmailTemplate) (docs : List EmailDoc) (s2 : Store)
    (hc : s.campaigns.find? (fun x => x.id = cid) = some c)
    (ht : templatesGet c.template = some t)
    (h : generate_emails s cid outDir = .ok (docs, s2)) :
    ∀ em nm tok, (em, nm, tok) ∈ joinTriples s cid →
      (∃ d ∈ docs, d.recipient = em ∧ d.token = tok ∧
        d.body = t.body.replace "{link}" ("http://localhost:8080/track/" ++ tok))
      ∧ (∀ r ∈ s2.results, r.token = tok → r.email_sent = true) := by
  obtain ⟨hdocs, -, -, hres⟩ := generate_emails_ok hc ht h
  intro em nm tok htrip
  rw [joinTriples, List.mem_map] at htrip
  obtain ⟨p, hp, heq⟩ := htrip
  obtain ⟨he1, he2, he3⟩ : p.1.email = em ∧ p.1.name = nm ∧ p.2.token = tok := by
    simpa [Prod.ext_iff] using heq
  constructor
  · refine ⟨renderDoc outDir t c.name p.1.email p.2.token, ?_, he1, he3, ?_⟩
    · rw [hdocs]
      exact List.mem_map_of_mem _ hp
    · show t.body.replace "{link}" ("http://localhost:8080/track/" ++ p.2.token) = _
      rw [he3]
  · intro r hr htok
    rw [hres, List.mem_map] at hr
    obtain ⟨r0, hr0, hfr⟩ := hr
    by_cases hcont : (((joinRows s cid).map (fun q => q.2.token)).contains r0.token) = true
    · rw [if_pos hcont] at hfr
      rw [← hfr]
    · rw [Bool.not_eq_true] at hcont
      rw [if_neg (by rw [hcont]; exact Bool.false_ne_true)] at hfr
      exfalso
      have hmem : tok ∈ (joinRows s cid).map (fun q => q.2.token) :=
        List.mem_map.mpr ⟨p, hp, he3⟩
      have hmem2 : r0.token ∈ (joinRows s cid).map (fun q => q.2.token) := by
        rw [hfr, htok]
        exact hmem
      have helem : ((joinRows s cid).map (fun q => q.2.token)).contains r0.token = true :=
        List.elem_iff.mpr hmem2
      rw [hcont] at helem
      exact Bool.false_ne_true helem

/-- The rendering run on the singly-enrolled store. -/
def demoRender : List EmailDoc × Store :=
  match generate_emails demoAlice "c1" "emails" with
  | .ok p => p
  | .error _ => ([], demoAlice)

/-- C5 witness: rendering `demoAlice` writes alice's document with the
substituted tracking link for token `t1` and marks her Result sent. -/
theorem claim_C5_witness :
    (∃ d ∈ demoRender.1, d.recipient = "alice@x.com" ∧ d.token = "t1" ∧
      d.body = tmplPasswordReset.body.replace "{link}"
        ("http://localhost:8080/track/" ++ "t1"))
    ∧ (∀ r ∈ demoRender.2.results, r.token = "t1" → r.email_sent = true) :=
  claim_C5_render_and_mark demoAlice "c1" "emails" demoCampaign tmplPasswordReset
    demoRender.1 demoRender.2 (by rfl) (by rfl) (by rfl) "alice@x.com" "Alice" "t1"
    (by decide)

/-- C10: `generate_emails` renders exactly the join triples (one document per
employee/result join row), so a Result whose `employee_id` matches no
Employee row — as duplicate re-enrollment produces — gets no document and is
left untouched, its `email_sent` flag staying as it was; concretely, on
`demoAliceTwice` the rendered store reports `emails_sent` strictly below the
campaign's total Result count. -/
theorem claim_C10_dangling_not_rendered (s : Store) (cid outDir : String)
    (c : CampaignRow) (t : EmailTemplate) (docs : List EmailDoc) (s2 : Store)
    (hc : s.campaigns.find? (fun x => x.id = cid) = some c)
    (ht : templatesGet c.template = some t)
    (htok : (s.results.map (fun r => r.token)).Nodup)
    (h : generate_emails s cid outDir = .ok (docs, s2)) :
    docs.length = (joinTriples s cid).length
    ∧ (∃ upd : ResultRow → ResultRow, s2.results = s.results.map upd ∧
        ∀ r ∈ s.results, (∀ e ∈ s.employees, e.id ≠ r.employee_id) →
          upd r = r ∧ ∀ d ∈ docs, d.token ≠ r.token)
    ∧ (∃ docs2 s3, generate_emails demoAliceTwice "c1" "emails" = .ok (docs2, s3)
        ∧ (get_stats s3 "c1").emails_sent < (get_stats s3 "c1").total_employees) := by
  obtain ⟨hdocs, -, -, hres⟩ := generate_emails_ok hc ht h
  refine ⟨?_, ⟨fun r => if ((joinRows s cid).map (fun q => q.2.token)).contains r.token
      then { r with email_sent := true } else r, hres, ?_⟩, ?_⟩
  · rw [hdocs, joinTriples, List.length_map, List.length_map]
  · intro r hr hdang
    have key : ∀ q ∈ joinRows s cid, q.2.token = r.token → False := by
      intro q hq hteq
      have hj := mem_joinRows.mp hq
      have hqr : q.2 = r := List.inj_on_of_nodup_map htok hj.2.2.1 hr hteq
      exact hdang q.1 hj.1 (by rw [← hqr, hj.2.2.2])
    have hnc : (((joinRows s cid).map (fun q => q.2.token)).contains r.token) = false := by
      rw [Bool.eq_false_iff]
      intro hcc
      have hmem := List.elem_iff.mp hcc
      rw [List.mem_map] at hmem
      obtain ⟨q, hq, hteq⟩ := hmem
      exact key q hq hteq
    constructor
    · show (if ((joinRows s cid).map (fun q => q.2.token)).contains r.token = true
        then _ else r) = r
      rw [hnc]
      simp
    · intro d hd
      rw [hdocs, List.mem_map] at hd
      obtain ⟨q, hq, hdq⟩ := hd
      intro hteq
      rw [← hdq] at hteq
      exact key q hq hteq
  · refine ⟨_, _, rfl, ?_⟩
    decide

/-- The rendering run on the store holding a dangling Result. -/
def demoRender2 : List EmailDoc × Store :=
  match generate_emails demoAliceTwice "c1" "emails" with
  | .ok p => p
  | .error _ => ([], demoAliceTwice)

/-- C10 witness: on the duplicate-enrollment store, only alice's consistent
Result is rendered; the dangling one keeps `email_sent = false` and the sent
count stays below the total. -/
theorem claim_C10_witness :
    demoRender2.1.length = (joinTriples demoAliceTwice "c1").length
    ∧ (∃ upd : ResultRow → ResultRow,
        demoRender2.2.results = demoAliceTwice.results.map upd ∧
        ∀ r ∈ demoAliceTwice.results,
          (∀ e ∈ demoAliceTwice.employees, e.id ≠ r.employee_id) →
          upd r = r ∧ ∀ d ∈ demoRender2.1, d.token ≠ r.token)
    ∧ (∃ docs2 s3, generate_emails demoAliceTwice "c1" "emails" = .ok (docs2, s3)
        ∧ (get_stats s3 "c1").emails_sent < (get_stats s3 "c1").total_employees) :=
  claim_C10_dangling_not_rendered demoAliceTwice "c1" "emails" demoCampaign
    tmplPasswordReset demoRender2.1 demoRender2.2 (by rfl) (by rfl) (by decide) (by rfl)

/-! ### Lemmas for the department aggregation -/

theorem filter_map_mk_const (e : EmployeeRow) (rs : List ResultRow)
    (q : EmployeeRow × ResultRow → Bool) (c : Bool) (hq : ∀ r, q (e, r) = c) :
    (rs.map (fun r => (e, r))).filter q
      = if c then rs.map (fun r => (e, r)) else [] := by
  rw [List.filter_map]
  have hcomp : (q ∘ fun r => (e, r)) = fun _ => c := funext fun r => hq r
  rw [hcomp]
  cases c <;> simp

theorem filter_dept_flatMap (l : List EmployeeRow) (rs : List ResultRow) (d : String) :
    (l.flatMap (fun e => (rs.filter (fun r => r.employee_id = e.id)).map
      (fun r => (e, r)))).filter (fun p => p.1.department = d)
    = (l.filter (fun e => e.department = d)).flatMap
        (fun e => (rs.filter (fun r => r.employee_id = e.id)).map (fun r => (e, r))) := by
  induction l with
  | nil => simp
  | cons e es ih =>
    rw [List.flatMap_cons, List.filter_append, ih]
    by_cases hd : e.department = d
    · rw [filter_map_mk_const e _ _ true (fun r => by simp [hd]), if_pos rfl,
        List.filter_cons_of_pos (by simp [hd]), List.flatMap_cons]
    · rw [filter_map_mk_const e _ _ false (fun r => by simp [hd]),
        List.filter_cons_of_neg (by simp [hd])]
      simp

theorem filter_flag_flatMap (l : List EmployeeRow) (rs : List ResultRow)
    (g : ResultRow → Bool) :
    (l.flatMap (fun e => (rs.filter (fun r => r.employee_id = e.id)).map
      (fun r => (e, r)))).filter (fun p => g p.2)
    = l.flatMap (fun e => ((rs.filter (fun r => r.employee_id = e.id)).filter g).map
        (fun r => (e, r))) := by
  induction l with
  | nil => simp
  | cons e es ih =>
    rw [List.flatMap_cons, List.filter_append, ih, List.flatMap_cons]
    congr 1
    have hcomp : ((fun p : EmployeeRow × ResultRow => g p.2) ∘ (fun r => (e, r))) = g :=
      funext fun r => rfl
    rw [List.filter_map, hcomp]

theorem sum_map_length_one {α : Type} (l : List α) (f : α → Nat)
    (h : ∀ a ∈ l, f a = 1) : (l.map f).sum = l.length := by
  induction l with
  | nil => rfl
  | cons a as ih =>
    rw [List.map_cons, List.sum_cons, h a (List.mem_cons_self _ _),
      ih (fun x hx => h x (List.mem_cons_of_mem _ hx)), List.length_cons,
      Nat.add_comm]

/-- C8: `get_stats`' department breakdown has exactly one entry per distinct
department among the campaign's enrolled employees; each entry's `total` is
the number of the campaign's employees in that department, and its `clicked`
and `reported` values are the sums of the `link_clicked` and
`phishing_reported` flags over those employees' Result rows.  Hypothesis:
every enrolled employee of the campaign has exactly one Result row
referencing it — which is what enrollment creates (`COUNT(*)` over the SQL
join counts employees only under this shape). -/
theorem claim_C8_department_breakdown (s : Store) (cid : String)
    (hone : ∀ e ∈ s.employees, e.campaign_id = cid →
      (s.results.filter (fun r => r.employee_id = e.id)).length = 1) :
    (((dept_stats s cid).map (fun st => st.department)).Nodup)
    ∧ (∀ d : String, (∃ st ∈ dept_stats s cid, st.department = d)
        ↔ ∃ e ∈ s.employees, e.campaign_id = cid ∧ e.department = d)
    ∧ (∀ st ∈ dept_stats s cid,
        st.total = ((s.employees.filter (fun e => e.campaign_id = cid)).filter
          (fun e => e.department = st.department)).length
        ∧ st.clicked = (((s.employees.filter (fun e => e.campaign_id = cid)).filter
            (fun e => e.department = st.department)).map (fun e =>
              ((s.results.filter (fun r => r.employee_id = e.id)).filter
                (fun r => r.link_clicked)).length)).sum
        ∧ st.reported = (((s.employees.filter (fun e => e.campaign_id = cid)).filter
            (fun e => e.department = st.department)).map (fun e =>
              ((s.results.filter (fun r => r.employee_id = e.id)).filter
                (fun r => r.phishing_reported)).length)).sum) := by
  have honeC : ∀ e ∈ s.employees.filter (fun e => e.campaign_id = cid),
      (s.results.filter (fun r => r.employee_id = e.id)).length = 1 := by
    intro e he
    rw [List.mem_filter, decide_eq_true_eq] at he
    exact hone e he.1 he.2
  refine ⟨?_, ?_, ?_⟩
  · have h1 : ((dept_stats s cid).map (fun st => st.department))
        = ((joinRows s cid).map (fun p => p.1.department)).dedup := by
      simp only [dept_stats, List.map_map]
      exact (List.map_congr_left (fun d _ => rfl)).trans (List.map_id _)
    rw [h1]
    exact List.nodup_dedup _
  · intro d
    constructor
    · rintro ⟨st, hst, rfl⟩
      simp only [dept_stats, List.mem_map] at hst
      obtain ⟨d0, hd0, rfl⟩ := hst
      rw [List.mem_dedup, List.mem_map] at hd0
      obtain ⟨p, hp, hpd⟩ := hd0
      have hj := mem_joinRows.mp hp
      exact ⟨p.1, hj.1, hj.2.1, hpd⟩
    · rintro ⟨e, he, hcamp, hdep⟩
      have h1 := hone e he hcamp
      obtain ⟨r, hrmem⟩ := List.exists_mem_of_length_pos
        (Nat.lt_of_lt_of_le Nat.zero_lt_one (Nat.le_of_eq h1.symm))
      rw [List.mem_filter, decide_eq_true_eq] at hrmem
      have hjoin : ((e, r) : EmployeeRow × ResultRow) ∈ joinRows s cid :=
        mem_joinRows.mpr ⟨he, hcamp, hrmem.1, hrmem.2⟩
      have hd : d ∈ ((joinRows s cid).map (fun p => p.1.department)).dedup := by
        rw [List.mem_dedup, List.mem_map]
        exact ⟨(e, r), hjoin, hdep⟩
      exact ⟨_, List.mem_map.mpr ⟨d, hd, rfl⟩, rfl⟩
  · intro st hst
    simp only [dept_stats, List.mem_map] at hst
    obtain ⟨d, hd, rfl⟩ := hst
    dsimp only
    refine ⟨?_, ?_, ?_⟩
    · show ((joinRows s cid).filter (fun p => p.1.department = d)).length = _
      unfold joinRows
      rw [filter_dept_flatMap, List.length_flatMap]
      apply sum_map_length_one
      intro e he
      rw [List.mem_filter] at he
      show ((s.results.filter (fun r => r.employee_id = e.id)).map (fun r => (e, r))).length = 1
      rw [List.length_map]
      exact honeC e he.1
    · show (((joinRows s cid).filter (fun p => p.1.department = d)).filter
        (fun p => p.2.link_clicked)).length = _
      unfold joinRows
      rw [filter_dept_flatMap, filter_flag_flatMap, List.length_flatMap]
      apply congrArg List.sum
      apply List.map_congr_left
      intro e _
      show (((s.results.filter (fun r => r.employee_id = e.id)).filter
        (fun r => r.link_clicked)).map (fun r => (e, r))).length = _
      rw [List.length_map]
    · show (((joinRows s cid).filter (fun p => p.1.department = d)).filter
        (fun p => p.2.phishing_reported)).length = _
      unfold joinRows
      rw [filter_dept_flatMap, filter_flag_flatMap, List.length_flatMap]
      apply congrArg List.sum
      apply List.map_congr_left
      intro e _
      show (((s.results.filter (fun r => r.employee_id = e.id)).filter
        (fun r => r.phishing_reported)).map (fun r => (e, r))).length = _
      rw [List.length_map]

/-- C8 witness: the §8 scenario — Eng has two employees with one click and one
report, Sales one employee with neither. -/
theorem claim_C8_witness :
    (((dept_stats demoS1 "c1").map (fun st => st.department)).Nodup)
    ∧ (∀ d : String, (∃ st ∈ dept_stats demoS1 "c1", st.department = d)
        ↔ ∃ e ∈ demoS1.employees, e.campaign_id = "c1" ∧ e.department = d)
    ∧ (∀ st ∈ dept_stats demoS1 "c1",
        st.total = ((demoS1.employees.filter (fun e => e.campaign_id = "c1")).filter
          (fun e => e.department = st.department)).length
        ∧ st.clicked = (((demoS1.employees.filter (fun e => e.campaign_id = "c1")).filter
            (fun e => e.department = st.department)).map (fun e =>
              ((demoS1.results.filter (fun r => r.employee_id = e.id)).filter
                (fun r => r.link_clicked)).length)).sum
        ∧ st.reported = (((demoS1.employees.filter (fun e => e.campaign_id = "c1")).filter
            (fun e => e.department = st.department)).map (fun e =>
              ((demoS1.results.filter (fun r => r.employee_id = e.id)).filter
                (fun r => r.phishing_reported)).length)).sum) :=
  claim_C8_department_breakdown demoS1 "c1" (by decide)

/-- The enrollment loop preserves «every employee row has exactly one result
row referencing it» — the shape `claim_C8_department_breakdown` assumes.
The inserted employee's result is created in the same iteration; ignored
(duplicate-email) records produce results referencing no employee, which
touch no employee's count. -/
theorem enrollLoop_one_result {cid : String} :
    ∀ (pairs : List (Record × EnrollIds)) (st st2 : List EmployeeRow × List ResultRow),
      enrollLoop cid st pairs = some st2 →
      (∀ e ∈ st.1, (st.2.filter (fun r => r.employee_id = e.id)).length = 1) →
      (∀ p ∈ pairs, (∀ e ∈ st.1, e.id ≠ p.2.emp_id) ∧
        (∀ r ∈ st.2, r.employee_id ≠ p.2.emp_id)) →
      (pairs.map (fun p => p.2.emp_id)).Nodup →
      (∀ e ∈ st2.1, (st2.2.filter (fun r => r.employee_id = e.id)).length = 1) := by
  intro pairs
  induction pairs with
  | nil =>
    intro st st2 h hP _ _
    unfold enrollLoop at h
    simp at h
    rw [← h]
    exact hP
  | cons p rest ih =>
    intro st st2 h hP hfresh hnodup
    rcases p with ⟨rec, i⟩
    have h2 := enrollLoop_cons_ok h
    have hmap := hnodup
    rw [List.map_cons, List.nodup_cons] at hmap
    obtain ⟨hn, hrest⟩ := hmap
    obtain ⟨hfid, hfres⟩ := hfresh (rec, i) (List.mem_cons_self _ _)
    -- appending the fresh result leaves every old employee's count at 1
    have hPold : ∀ e ∈ st.1,
        ((st.2 ++ [mkResult cid i]).filter (fun r => r.employee_id = e.id)).length = 1 := by
      intro e he
      rw [List.filter_append, List.length_append, hP e he, List.filter_singleton]
      have : (decide (((mkResult cid i).employee_id = e.id))) = false := by
        simp [mkResult]
        exact fun hc => (hfid e he) hc.symm
      rw [this]
      rfl
    -- and the fresh result is the unique one referencing the fresh id
    have hPnew : (((st.2 ++ [mkResult cid i]).filter
        (fun r => r.employee_id = i.emp_id)).length) = 1 := by
      rw [List.filter_append, List.length_append, List.filter_singleton]
      have h0 : st.2.filter (fun r => r.employee_id = i.emp_id) = [] := by
        rw [List.filter_eq_nil_iff]
        intro r hr
        simp [hfres r hr]
      have h1 : (decide ((mkResult cid i).employee_id = i.emp_id)) = true := by
        simp [mkResult]
      rw [h0, h1]
      rfl
    have hfresh2 : ∀ p ∈ rest, (∀ r ∈ st.2 ++ [mkResult cid i],
        r.employee_id ≠ p.2.emp_id) := by
      intro p hp r hr
      rcases List.mem_append.mp hr with hmem | hmem
      · exact (hfresh p (List.mem_cons_of_mem _ hp)).2 r hmem
      · rcases List.mem_singleton.mp hmem with rfl
        show i.emp_id ≠ p.2.emp_id
        intro hc
        exact hn (by rw [hc]; exact List.mem_map_of_mem _ hp)
    rcases insertEmployee_spec st.1 (newEmp cid rec i) with ⟨_, heq⟩ | ⟨_, heq⟩ <;>
      rw [heq] at h2
    · exact ih (st.1, st.2 ++ [mkResult cid i]) st2 h2 hPold
        (fun p hp => ⟨(hfresh p (List.mem_cons_of_mem _ hp)).1, hfresh2 p hp⟩) hrest
    · refine ih (st.1 ++ [newEmp cid rec i], st.2 ++ [mkResult cid i]) st2 h2 ?_ ?_ hrest
      · intro e he
        rcases List.mem_append.mp he with hmem | hmem
        · exact hPold e hmem
        · rcases List.mem_singleton.mp hmem with rfl
          exact hPnew
      · intro p hp
        refine ⟨?_, hfresh2 p hp⟩
        intro e he
        rcases List.mem_append.mp he with hmem | hmem
        · exact (hfresh p (List.mem_cons_of_mem _ hp)).1 e hmem
        · rcases List.mem_singleton.mp hmem with rfl
          show i.emp_id ≠ p.2.emp_id
          intro hc
          exact hn (by rw [hc]; exact List.mem_map_of_mem _ hp)

/-- Store-level corollary: `add_employees` preserves «every employee row has
exactly one result row referencing it», so the hypothesis of
`claim_C8_department_breakdown` holds in every store enrollment builds. -/
theorem add_employees_one_result (s : Store) (cid : String)
    (records : List Record) (ids : List EnrollIds) (s2 : Store)
    (h : add_employees s cid records ids = .ok s2)
    (hP : ∀ e ∈ s.employees, (s.results.filter (fun r => r.employee_id = e.id)).length = 1)
    (hfresh : ∀ i ∈ ids, (∀ e ∈ s.employees, e.id ≠ i.emp_id) ∧
      (∀ r ∈ s.results, r.employee_id ≠ i.emp_id))
    (hnodup : (ids.map (fun i => i.emp_id)).Nodup) :
    ∀ e ∈ s2.employees, (s2.results.filter (fun r => r.employee_id = e.id)).length = 1 := by
  obtain ⟨-, -, st, hloop, -, hemp, hres⟩ := add_employees_ok h
  have hsub : ((records.zip ids).map (fun p => p.2.emp_id)).Sublist
      (ids.map (fun i => i.emp_id)) := by
    have h1 := (zip_map_snd_sublist records ids).map (fun i : EnrollIds => i.emp_id)
    simpa [List.map_map, Function.comp] using h1
  rw [hemp, hres]
  exact enrollLoop_one_result (records.zip ids) (s.employees, s.results) st hloop hP
    (fun p hp => hfresh p.2 (List.of_mem_zip hp).2) (hnodup.sublist hsub)

/-! ### Lemmas for the JSON round trip -/

theorem jsonNat_natCast (n : ℕ) : jsonNat (.num (n : ℚ)) = some n := by
  have h1 : (n : ℚ).den = 1 := Rat.den_natCast n
  have h2 : (n : ℚ).num = (n : ℤ) := Rat.num_natCast n
  simp [jsonNat, h1, h2]

theorem deptOfJson_deptToJson (d : DeptStat) : deptOfJson (deptToJson d) = some d := by
  simp [deptToJson, deptOfJson, jsonNat_natCast]

theorem deptsOfJson_map (l : List DeptStat) :
    deptsOfJson (l.map deptToJson) = some l := by
  induction l with
  | nil => rfl
  | cons d ds ih =>
    rw [List.map_cons]
    unfold deptsOfJson
    rw [deptOfJson_deptToJson, ih]

/-- C9: exporting in the structured (`json`) format writes the document
`statsToJson (get_stats …)` under the deterministic
`report_<cid[:8]>.json` name, and re-parsing that document recovers the
computed `StatsReport` field for field, nested department breakdown
included. -/
theorem claim_C9_structured_roundtrip (s : Store) (cid : String) :
    export_report s cid "json" = .ok ("report_" ++ cid.take 8 ++ "." ++ "json",
      .structured (statsToJson (get_stats s cid)))
    ∧ statsOfJson (statsToJson (get_stats s cid)) = some (get_stats s cid) := by
  constructor
  · unfold export_report
    rw [if_neg (by decide), if_pos rfl]
  · simp [statsToJson, statsOfJson, jsonNat_natCast, deptsOfJson_map]

end Phishing
